import Mathlib

/-!
People Power Radio: verification of the spec against `script.js`.

This file gives a shallow embedding of the core of `script.js`:

* the CSV row splitter `csvSplit` and the table-to-records converter
  `csvToObjects` (script.js lines 603–650);
* the numeric coercion used by `transformSheetData` (JavaScript `parseFloat`,
  applied at script.js lines 67–68), modelled by `parseFloat` on character
  lists with exact rational values;
* the audio controller's volume/mute handler and play/pause handler
  (script.js lines 349–391);
* the date/station selection state machine: `selectStation`
  (script.js lines 432–502) and the date-change handler `changePanelContent`
  (script.js lines 510–596), over an explicit application state record.

JavaScript objects used as string-keyed dictionaries are embedded as
insertion-ordered association lists with an overwriting update (`objSet`),
matching property-assignment semantics.  Floating point numbers only ever
arise here from `parseFloat` of short decimal numerals, so they are modelled
exactly by rationals, with NaN and the infinities as explicit constructors of
`JSNum`.
-/

/-- Lookup of a property in a JavaScript-object-as-association-list:
the value at the first matching key, `none` when the property is absent
(JavaScript `undefined`). -/
def objGet {V : Type} (k : String) : List (String × V) → Option V
  | [] => none
  | p :: ps => if p.1 = k then some p.2 else objGet k ps

/-- JavaScript property assignment `obj[k] = v` on an association list:
overwrite the binding in place when the key is present (object keys are
unique, so at most one binding matches), otherwise append a new binding
(insertion order preserved). -/
def objSet {V : Type} : List (String × V) → String → V → List (String × V)
  | [], k, v => [(k, v)]
  | p :: ps, k, v => if p.1 = k then (k, v) :: ps else p :: objSet ps k v

/-- The keys of an object, in insertion order. -/
def objKeys {V : Type} (obj : List (String × V)) : List String :=
  obj.map (·.1)

/-- A sequence of property assignments, first to last. -/
def objSetAll {V : Type} (obj : List (String × V)) (ps : List (String × V)) :
    List (String × V) :=
  ps.foldl (fun o p => objSet o p.1 p.2) obj

/-- `csvSplit` from script.js lines 627–650, on the character list of one row.
Walks the row left to right with an `inQuotes` flag and an accumulator for the
current field (kept reversed here): a double quote only toggles the flag, a
comma outside quotes ends the current field, every other character (including
a comma inside quotes) is appended to the current field.  The final
accumulator is always pushed as a last field. -/
def csvSplitAux : List Char → Bool → List Char → List (List Char)
  | [], _, cur => [cur.reverse]
  | c :: cs, inQuotes, cur =>
    if c = '"' then csvSplitAux cs (!inQuotes) cur
    else if inQuotes = false ∧ c = ',' then cur.reverse :: csvSplitAux cs inQuotes []
    else csvSplitAux cs inQuotes (c :: cur)

/-- `csvSplit(row)`: split one CSV row into its fields. -/
def csvSplit (row : List Char) : List (List Char) :=
  csvSplitAux row false []

/-- JavaScript `csv.split("\n")` (script.js line 604): split on every newline;
the empty text yields one empty row, a trailing newline yields a final empty
row. -/
def splitNl : List Char → List (List Char)
  | [] => [[]]
  | c :: cs =>
    if c = '\n' then [] :: splitNl cs
    else
      match splitNl cs with
      | [] => [[c]]
      | r :: rs => (c :: r) :: rs

/-- Character list to `String`. -/
def toStr (cs : List Char) : String := ⟨cs⟩

/-- The body of the row loop in `csvToObjects` (script.js lines 613–616):
`thisObject[propertyNames[j]] = row[j]` for `j = 0 .. row.length - 1`.
An index beyond the header makes the key the string `"undefined"`, which is
how JavaScript stringifies an out-of-range `propertyNames[j]` when it is used
as a property key. -/
def zipRecord (names row : List String) : List (String × String) :=
  objSetAll []
    ((List.range row.length).map (fun j => (names.getD j "undefined", row.getD j "")))

/-- `csvToObjects` from script.js lines 603–620: split the text into rows,
read the header from the first row, and turn every later row into a record by
positional assignment against the header names. -/
def csvToObjects (csv : List Char) : List (List (String × String)) :=
  match splitNl csv with
  | [] => []
  | header :: rows =>
    rows.map (fun r => zipRecord ((csvSplit header).map toStr) ((csvSplit r).map toStr))

/-- Wrap a field value in double quotes when it contains the delimiter, the
way a sheet-exporting producer protects embedded commas. -/
def quoteIfNeeded (f : List Char) : List Char :=
  if ',' ∈ f then '"' :: (f ++ ['"']) else f

/-- Join field texts into one CSV row with comma separators. -/
def joinComma : List (List Char) → List Char
  | [] => []
  | [f] => f
  | f :: fs => f ++ ',' :: joinComma fs

/-! ## Numeric coercion (`parseFloat`) and the Master-table transform -/

/-- A JavaScript number as it can come out of `parseFloat`: NaN, a signed
infinity (`true` = negative), or an exact value.  The decimal literals
appearing in the sheets are modelled exactly by rationals. -/
inductive JSNum where
  | nan : JSNum
  | inf : Bool → JSNum
  | num : ℚ → JSNum
deriving DecidableEq

/-- ECMAScript `StrWhiteSpaceChar`, restricted to the ASCII white space
characters that can occur in sheet-exported CSV text. -/
def isWS (c : Char) : Bool :=
  c = ' ' ∨ c = '\t' ∨ c = '\n' ∨ c = '\r' ∨ c = '\x0b' ∨ c = '\x0c'

/-- Optional sign: returns `true` for a consumed minus sign. -/
def parseSign : List Char → Bool × List Char
  | '+' :: cs => (false, cs)
  | '-' :: cs => (true, cs)
  | cs => (false, cs)

/-- The numeric value of a digit string, most significant digit first. -/
def natOfDigits (ds : List Char) : ℕ :=
  ds.foldl (fun n c => 10 * n + (c.toNat - 48)) 0

/-- Optional exponent part `e`/`E`, sign, digits.  A malformed exponent
(no digits after the marker) is not consumed at all, so `"1e"` parses
as `1`. -/
def parseExp (cs : List Char) : ℤ × List Char :=
  match cs with
  | 'e' :: rest | 'E' :: rest =>
    let sr := parseSign rest
    let dr := sr.2.span Char.isDigit
    if dr.1 = [] then (0, cs)
    else ((if sr.1 then -(natOfDigits dr.1 : ℤ) else (natOfDigits dr.1 : ℤ)), dr.2)
  | _ => (0, cs)

/-- ECMAScript `parseFloat`, as invoked at script.js lines 67–68: skip leading
white space, read an optional sign, then the longest prefix that is a
`StrDecimalLiteral` (`Infinity`, or digits with an optional fraction and an
optional exponent); trailing characters beyond that prefix are ignored.  If no
such prefix exists the result is NaN. -/
def parseFloat (cs0 : List Char) : JSNum :=
  let cs1 := cs0.dropWhile isWS
  let sgn := parseSign cs1
  if ['I', 'n', 'f', 'i', 'n', 'i', 't', 'y'].isPrefixOf sgn.2 then .inf sgn.1
  else
    let ir := sgn.2.span Char.isDigit
    let fr := if ir.2.head? = some '.' then ir.2.tail.span Char.isDigit else ([], ir.2)
    if ir.1 = [] ∧ fr.1 = [] then .nan
    else
      let e := (parseExp (if ir.2.head? = some '.' then fr.2 else ir.2)).1
      let base : ℚ := (natOfDigits (ir.1 ++ fr.1) : ℚ) / (10 : ℚ) ^ fr.1.length
      let v : ℚ := if 0 ≤ e then base * (10 : ℚ) ^ e.toNat else base / (10 : ℚ) ^ (-e).toNat
      .num (if sgn.1 then -v else v)

/-- `true` when the text, after optional white space and sign, starts with a
digit, a decimal point followed by a digit, or `Infinity` — exactly the inputs
on which `parseFloat` finds a numeric prefix. -/
def startsNumeric (cs0 : List Char) : Bool :=
  let cs2 := (parseSign (cs0.dropWhile isWS)).2
  ['I', 'n', 'f', 'i', 'n', 'i', 't', 'y'].isPrefixOf cs2 ||
    (match cs2 with
     | c :: rest =>
       c.isDigit ||
         (decide (c = '.') && (match rest with
           | d :: _ => d.isDigit
           | [] => false))
     | [] => false)

/-- A station as built by `transformSheetData` from one Master-table record
(script.js lines 64–71).  Property reads of an absent field give JavaScript
`undefined` (`none` here); `parseFloat(undefined)` coerces the argument to the
string `"undefined"`. -/
structure MasterStation where
  id : Option String
  name : Option String
  lat : JSNum
  lng : JSNum
  description : Option String
  icon : Option String
deriving DecidableEq

/-- Read a record field as the string `parseFloat` receives: the field's text,
or `"undefined"` when the field is absent. -/
def fieldText (rec : List (String × String)) (k : String) : List Char :=
  ((objGet k rec).getD "undefined").toList

/-- The Master-record-to-station mapping of `transformSheetData`
(script.js lines 64–71): copy the string fields and coerce `lat`/`lng` with
`parseFloat`. -/
def toStation (rec : List (String × String)) : MasterStation :=
  { id := objGet "id" rec
    name := objGet "name" rec
    lat := parseFloat (fieldText rec "lat")
    lng := parseFloat (fieldText rec "lng")
    description := objGet "description" rec
    icon := objGet "icon" rec }

/-- The Master-sheet half of `transformSheetData`: `stations = allSheets.Master.map(...)`. -/
def transformMaster (recs : List (List (String × String))) : List MasterStation :=
  recs.map toStation

/-! ## Audio playback controller state -/

/-- The closure state of the volume/mute controls inside
`initializeAudioPlayer`: the media element's volume, the slider position, the
`isMuted` flag and the remembered `lastVolume` (script.js lines 166–366). -/
structure VolumeState where
  volume : ℚ
  sliderValue : ℚ
  isMuted : Bool
  lastVolume : ℚ
deriving DecidableEq

/-- The `volumeBtn` click handler (script.js lines 349–366).  When muted:
restore the remembered volume, or the fixed default 0.7 when the remembered
volume was 0, and clear the flag.  Otherwise: remember the current volume,
set volume and slider to 0, and set the flag. -/
def volumeBtnClick (st : VolumeState) : VolumeState :=
  if st.isMuted then
    let v : ℚ := if st.lastVolume > 0 then st.lastVolume else 7 / 10
    { st with volume := v, sliderValue := v, isMuted := false }
  else
    { st with lastVolume := st.volume, volume := 0, sliderValue := 0, isMuted := true }

/-- The closure state of the play/pause transport control inside
`initializeAudioPlayer` (script.js lines 171, 379–391), together with
counters for the observable side channels: `consoleLogs` counts messages
written to the developer console, `alerts` counts user-facing alert dialogs
(no code path in `script.js` ever raises one). -/
structure TransportState where
  isPlaying : Bool
  btnLabel : String
  consoleLogs : ℕ
  alerts : ℕ
deriving DecidableEq

/-- The `playBtn` click handler (script.js lines 379–391), parameterised by
whether the platform accepts the playback-start attempt (`accepted = false`
models an autoplay-policy rejection of `audio.play()`).  The rejection
handler only writes a console message; the label assignment and the
`isPlaying = !isPlaying` flip happen unconditionally on this path. -/
def playBtnClick (st : TransportState) (accepted : Bool) : TransportState :=
  if st.isPlaying then { st with btnLabel := "Play", isPlaying := false }
  else
    { st with btnLabel := "Pause", isPlaying := true,
              consoleLogs := if accepted then st.consoleLogs else st.consoleLogs + 1 }

/-! ## The date/station selection state machine

The machine's state gathers exactly the mutable locations the two handlers
`selectStation` (script.js lines 432–502) and `changePanelContent`
(script.js lines 510–596) read and write: the global `stations` roster and
`dateContent` map, the date dropdown's committed value, the persisted station
id (`currentStationEl.dataset.id`), the list highlight, the displayed
name/description texts, the audio element's source, `window.isPlaying`, the
play button label, the map viewport, the rendered panel texts and station
list, and the console side channels.  The date dropdown's option set is built
from the known date tabs only (script.js lines 412–419), so its committed
value always stays inside that set; the handlers' own guards are modelled
exactly. -/

/-- One roster entry, as the selection machine sees it (a station object of
the global `stations` array, already transformed). -/
structure Station where
  id : String
  name : String
  lat : JSNum
  lng : JSNum
deriving DecidableEq

/-- One per-date station entry (`dateContent[tab].stations[id]`,
script.js lines 91–94). -/
structure DateStationEntry where
  description : String
  audioUrl : String
deriving DecidableEq

/-- One per-date content entry (`dateContent[tab]`, script.js lines 82–86). -/
structure DateContentEntry where
  title : String
  context : String
  stations : List (String × DateStationEntry)
deriving DecidableEq

/-- The full mutable state read and written by the two selection handlers. -/
structure AppState where
  stations : List Station
  dateContent : List (String × DateContentEntry)
  selectedDate : String
  selectedStationId : Option String
  activeItem : Option String
  displayedName : String
  displayedDesc : String
  audioSrc : String
  mapCenter : JSNum × JSNum
  mapZoom : ℕ
  panelHeading : String
  contextTitle : String
  contextText : String
  stationList : List String
  isPlayingWindow : Bool
  btnLabel : String
  warnings : ℕ
  consoleLogs : ℕ
  alerts : ℕ
deriving DecidableEq

/-- `dateContent[selectedDateId]?.stations[stationId]` (script.js line 438):
the optional-chained lookup of the per-date data for a station. -/
def dynLookup (st : AppState) (stationId : String) : Option DateStationEntry :=
  match objGet st.selectedDate st.dateContent with
  | some dc => objGet stationId dc.stations
  | none => none

/-- `selectStation(stationId)` (script.js lines 432–502), parameterised by
whether the platform accepts the playback-start attempt at line 486.  When the
station id is missing from the roster or has no per-date entry, the handler
only logs a warning and returns (lines 440–443).  On success it persists the
id, moves the list highlight, updates the displayed name/description, loads
the new audio source, attempts playback (the promise handlers at lines
489–496 set `window.isPlaying` and the button label), and recenters the map
at zoom 12. -/
def selectStation (st : AppState) (playOk : Bool) (stationId : String) : AppState :=
  match st.stations.find? (fun s => s.id = stationId), dynLookup st stationId with
  | some station, some dyn =>
    { st with
      selectedStationId := some stationId,
      activeItem := if st.stationList.contains stationId then some stationId else none,
      displayedName := station.name,
      displayedDesc := dyn.description,
      audioSrc := dyn.audioUrl,
      isPlayingWindow := playOk,
      btnLabel := if playOk then "Pause" else "Play",
      consoleLogs := st.consoleLogs + (if playOk then 1 else 2),
      mapCenter := (station.lat, station.lng),
      mapZoom := 12 }
  | _, _ => { st with warnings := st.warnings + 1 }

/-- JavaScript `selectedDateId.replace('Feb', 'February ')` (script.js
line 528): replace the first occurrence of `Feb`. -/
def replaceFirstFeb : List Char → List Char
  | 'F' :: 'e' :: 'b' :: rest => "February ".toList ++ rest
  | c :: rest => c :: replaceFirstFeb rest
  | [] => []

/-- The station list rebuilt by `changePanelContent` (script.js lines
544–581): the roster stations that have an entry for the current date, in
roster order. -/
def renderedList (stations : List Station) (dc : DateContentEntry) : List String :=
  (stations.filter (fun s => (objGet s.id dc.stations).isSome)).map (·.id)

/-- The `else if (stations.length > 0)` fallback branch of
`changePanelContent` (script.js lines 589–595): select the first roster
station with an entry for the new date, or do nothing when none exists. -/
def changeFallback (st1 : AppState) (dc : DateContentEntry) (playOk : Bool) : AppState :=
  if st1.stations = [] then st1
  else
    match st1.stations.find? (fun s => (objGet s.id dc.stations).isSome) with
    | some s => selectStation st1 playOk s.id
    | none => st1

/-- The selection re-derivation of `changePanelContent` (script.js lines
585–595) on the already-re-rendered state: keep the persisted selection when
it has an entry for the new date, otherwise fall back via
`changeFallback`. -/
def reselect (st1 : AppState) (dc : DateContentEntry) (playOk : Bool) : AppState :=
  match st1.selectedStationId with
  | some cur =>
    if (objGet cur dc.stations).isSome then selectStation st1 playOk cur
    else changeFallback st1 dc playOk
  | none => changeFallback st1 dc playOk

/-- The re-render performed by `changePanelContent` for a known date
(script.js lines 524–583): heading, context texts, and the station list
rebuilt in roster order from the stations with entries for the date. -/
def renderState (st : AppState) (dc : DateContentEntry) : AppState :=
  { st with
    panelHeading := "Events of " ++ toStr (replaceFirstFeb st.selectedDate.toList),
    contextTitle := dc.title,
    contextText := dc.context,
    stationList := renderedList st.stations dc }

/-- `changePanelContent` (script.js lines 510–596) with the current dropdown
value already committed in `st.selectedDate`: an unknown date identifier is
logged and ignored (lines 515–519); a known one re-renders the heading,
context texts and station list, then re-derives the selection via
`reselect`. -/
def changePanelContent (st : AppState) (playOk : Bool) : AppState :=
  match objGet st.selectedDate st.dateContent with
  | none => { st with warnings := st.warnings + 1 }
  | some dc => reselect (renderState st dc) dc playOk

/-- The date-change transition: the dropdown proposes `d` and fires
`changePanelContent`.  The dropdown's options are exactly the known date tabs
(script.js lines 412–419), so a proposal outside `dateContent` never becomes
the committed date: the handler's guard (lines 515–519) warns and leaves
every piece of state untouched. -/
def setDate (st : AppState) (d : String) (playOk : Bool) : AppState :=
  if (objGet d st.dateContent).isSome then
    changePanelContent { st with selectedDate := d } playOk
  else
    { st with warnings := st.warnings + 1 }

/-- One user-driven transition of the selection machine: a date change or a
station click (marker click, list click, or popup button — all call
`selectStation`). -/
inductive AppStep : AppState → AppState → Prop
  | date (st : AppState) (d : String) (playOk : Bool) : AppStep st (setDate st d playOk)
  | select (st : AppState) (stationId : String) (playOk : Bool) :
      AppStep st (selectStation st playOk stationId)

/-- Reachability under any sequence of user-driven transitions. -/
def AppReachable (init st : AppState) : Prop :=
  Relation.ReflTransGen AppStep init st

/-- The selection invariant that actually holds of the code: whenever a
station id is selected *and the current date has at least one qualifying
roster station*, the selected id has an entry for the current date. -/
def SelInv (st : AppState) : Prop :=
  ∀ id dc, st.selectedStationId = some id →
    objGet st.selectedDate st.dateContent = some dc →
    (∃ s ∈ st.stations, (objGet s.id dc.stations).isSome) →
    (objGet id dc.stations).isSome

/-! ## Concrete sample data for witnesses and counterexamples

A two-station roster with two date tabs: `Feb22` has an entry for station
`s1` only, `Feb23` has no entries at all (every row of that tab had a blank
id, script.js line 90). -/

/-- Sample roster station `s1`. -/
def exS1 : Station := ⟨"s1", "Radyo Uno", JSNum.nan, JSNum.nan⟩

/-- Sample roster station `s2`. -/
def exS2 : Station := ⟨"s2", "Radyo Dos", JSNum.nan, JSNum.nan⟩

/-- `Feb22` content: only `s1` has an entry. -/
def exDC : DateContentEntry :=
  ⟨"February 22", "context", [("s1", ⟨"desc-s1", "url-s1"⟩)]⟩

/-- `Feb23` content: no station entries. -/
def exDCEmpty : DateContentEntry := ⟨"February 23", "context", []⟩

/-- The state right after load: no station selected yet. -/
def exInit : AppState :=
  { stations := [exS1, exS2]
    dateContent := [("Feb22", exDC), ("Feb23", exDCEmpty)]
    selectedDate := "Feb22"
    selectedStationId := none
    activeItem := none
    displayedName := ""
    displayedDesc := ""
    audioSrc := ""
    mapCenter := (JSNum.nan, JSNum.nan)
    mapZoom := 10
    panelHeading := ""
    contextTitle := ""
    contextText := ""
    stationList := []
    isPlayingWindow := false
    btnLabel := "Play"
    warnings := 0
    consoleLogs := 0
    alerts := 0 }

/-- The state reached from `exInit` by selecting date `Feb22` (auto-selects
`s1`) and then date `Feb23` (which has no qualifying station). -/
def exStale : AppState := setDate (setDate exInit "Feb22" true) "Feb23" true

/-! ## Lemmas about the object embedding -/

theorem objGet_objSet {V : Type} (obj : List (String × V)) (k k' : String) (v : V) :
    objGet k' (objSet obj k v) = if k' = k then some v else objGet k' obj := by
  induction obj with
  | nil =>
    by_cases h : k' = k
    · subst h; simp [objSet, objGet]
    · simp [objSet, objGet, h, Ne.symm h]
  | cons p ps ih =>
    by_cases hp : p.1 = k
    · by_cases hk : k' = k
      · subst hk; simp [objSet, objGet, hp]
      · simp [objSet, objGet, hp, hk, Ne.symm hk]
    · by_cases hk : k' = k
      · subst hk
        simp [objSet, objGet, hp, ih]
      · simp [objSet, objGet, hp, hk, ih]

theorem objKeys_objSet {V : Type} (obj : List (String × V)) (k : String) (v : V) :
    objKeys (objSet obj k v) =
      if k ∈ objKeys obj then objKeys obj else objKeys obj ++ [k] := by
  induction obj with
  | nil => simp [objSet, objKeys]
  | cons p ps ih =>
    by_cases hp : p.1 = k
    · simp [objSet, objKeys, hp]
    · have hkp : ¬k = p.1 := Ne.symm hp
      simp only [objSet, if_neg hp, objKeys, List.map_cons] at ih ⊢
      rw [ih]
      by_cases hm : k ∈ ps.map (·.1)
      · simp [hm, List.mem_cons, hkp]
      · simp [hm, List.mem_cons, hkp]

theorem objKeys_objSet_nodup {V : Type} (obj : List (String × V)) (k : String) (v : V)
    (h : (objKeys obj).Nodup) : (objKeys (objSet obj k v)).Nodup := by
  rw [objKeys_objSet]
  by_cases hm : k ∈ objKeys obj
  · simpa [hm] using h
  · simp [hm, List.nodup_append, h, List.Disjoint]
    intro a ha hak
    exact hm (hak ▸ ha)

theorem objGet_objSetAll {V : Type} (ps : List (String × V)) (obj : List (String × V))
    (k : String) :
    objGet k (objSetAll obj ps) =
      match ps.reverse.find? (fun p => p.1 = k) with
      | some p => some p.2
      | none => objGet k obj := by
  induction ps generalizing obj with
  | nil => simp [objSetAll]
  | cons p ps ih =>
    show objGet k (objSetAll (objSet obj p.1 p.2) ps) = _
    rw [ih]
    have hrev : (p :: ps).reverse = ps.reverse ++ [p] := by simp
    rw [hrev, List.find?_append]
    cases hf : ps.reverse.find? (fun q => q.1 = k) with
    | some q => simp [Option.or]
    | none =>
      simp only [Option.or, objGet_objSet]
      by_cases hk : p.1 = k
      · simp [hk, List.find?_cons]
      · have : ¬(k = p.1) := fun h => hk h.symm
        simp [hk, this, List.find?_cons, objGet]

theorem objKeys_objSetAll_nodup {V : Type} (ps obj : List (String × V))
    (h : (objKeys obj).Nodup) : (objKeys (objSetAll obj ps)).Nodup := by
  induction ps generalizing obj with
  | nil => simpa [objSetAll]
  | cons p ps ih =>
    exact ih (objSet obj p.1 p.2) (objKeys_objSet_nodup obj p.1 p.2 h)

/-! ## Lemmas about the CSV splitter -/

theorem csvSplitAux_quote (cs : List Char) (q : Bool) (cur : List Char) :
    csvSplitAux ('"' :: cs) q cur = csvSplitAux cs (!q) cur := by
  simp [csvSplitAux]

theorem csvSplitAux_comma (cs cur : List Char) :
    csvSplitAux (',' :: cs) false cur = cur.reverse :: csvSplitAux cs false [] := by
  simp [csvSplitAux]

theorem csvSplitAux_other (c : Char) (cs : List Char) (q : Bool) (cur : List Char)
    (h1 : c ≠ '"') (h2 : q = true ∨ c ≠ ',') :
    csvSplitAux (c :: cs) q cur = csvSplitAux cs q (c :: cur) := by
  cases q with
  | true => simp [csvSplitAux, h1]
  | false =>
    have hc : c ≠ ',' := h2.resolve_left (by simp)
    simp [csvSplitAux, h1, hc]

theorem csvSplitAux_plain (f : List Char) (h : ∀ c ∈ f, c ≠ '"' ∧ c ≠ ',')
    (cs cur : List Char) :
    csvSplitAux (f ++ cs) false cur = csvSplitAux cs false (f.reverse ++ cur) := by
  induction f generalizing cur with
  | nil => simp
  | cons a f ih =>
    have ha := h a (List.mem_cons_self a f)
    rw [List.cons_append, csvSplitAux_other a (f ++ cs) false cur ha.1 (Or.inr ha.2),
      ih (fun c hc => h c (List.mem_cons_of_mem a hc)) (a :: cur)]
    simp

theorem csvSplitAux_inQuotes (f : List Char) (h : ∀ c ∈ f, c ≠ '"')
    (cs cur : List Char) :
    csvSplitAux (f ++ cs) true cur = csvSplitAux cs true (f.reverse ++ cur) := by
  induction f generalizing cur with
  | nil => simp
  | cons a f ih =>
    have ha := h a (List.mem_cons_self a f)
    rw [List.cons_append, csvSplitAux_other a (f ++ cs) true cur ha (Or.inl rfl),
      ih (fun c hc => h c (List.mem_cons_of_mem a hc)) (a :: cur)]
    simp

theorem csvSplitAux_field (f : List Char) (hf : '"' ∉ f) (cs cur : List Char) :
    csvSplitAux (quoteIfNeeded f ++ cs) false cur = csvSplitAux cs false (f.reverse ++ cur) := by
  by_cases hc : ',' ∈ f
  · rw [quoteIfNeeded, if_pos hc, List.cons_append, csvSplitAux_quote,
      List.append_assoc, List.singleton_append]
    show csvSplitAux (f ++ '"' :: cs) true cur = _
    rw [csvSplitAux_inQuotes f (fun c hcf h => hf (h ▸ hcf)) ('"' :: cs) cur,
      csvSplitAux_quote]
    rfl
  · rw [quoteIfNeeded, if_neg hc]
    exact csvSplitAux_plain f
      (fun c hcf => ⟨fun h => hf (h ▸ hcf), fun h => hc (h ▸ hcf)⟩) cs cur

theorem csvSplit_joinQuoted (fs : List (List Char)) (h : ∀ f ∈ fs, '"' ∉ f)
    (hne : fs ≠ []) : csvSplit (joinComma (fs.map quoteIfNeeded)) = fs := by
  induction fs with
  | nil => exact absurd rfl hne
  | cons f fs ih =>
    have hf := h f (List.mem_cons_self f fs)
    cases fs with
    | nil =>
      show csvSplitAux (quoteIfNeeded f) false [] = [f]
      rw [← List.append_nil (quoteIfNeeded f), csvSplitAux_field f hf [] []]
      simp [csvSplitAux]
    | cons g gs =>
      have hjoin : joinComma ((f :: g :: gs).map quoteIfNeeded)
          = quoteIfNeeded f ++ ',' :: joinComma ((g :: gs).map quoteIfNeeded) := rfl
      show csvSplitAux (joinComma ((f :: g :: gs).map quoteIfNeeded)) false [] = _
      rw [hjoin, csvSplitAux_field f hf _ [], csvSplitAux_comma,
        show csvSplitAux (joinComma ((g :: gs).map quoteIfNeeded)) false [] = g :: gs from
          ih (fun x hx => h x (List.mem_cons_of_mem f hx)) (by simp)]
      simp

theorem map_quoteIfNeeded_id (fs : List (List Char)) (h : ∀ f ∈ fs, ',' ∉ f) :
    fs.map quoteIfNeeded = fs := by
  induction fs with
  | nil => rfl
  | cons x xs ih =>
    rw [List.map_cons, ih (fun f hf => h f (List.mem_cons_of_mem x hf)),
      quoteIfNeeded, if_neg (h x (List.mem_cons_self x xs))]

theorem csvSplit_plainRow (fs : List (List Char)) (h : ∀ f ∈ fs, '"' ∉ f ∧ ',' ∉ f)
    (hne : fs ≠ []) : csvSplit (joinComma fs) = fs := by
  have hmap := map_quoteIfNeeded_id fs (fun f hf => (h f hf).2)
  have hq := csvSplit_joinQuoted fs (fun f hf => (h f hf).1) hne
  rwa [hmap] at hq

theorem csvSplitAux_ne_nil (row : List Char) (q : Bool) (cur : List Char) :
    csvSplitAux row q cur ≠ [] := by
  induction row generalizing q cur with
  | nil => simp [csvSplitAux]
  | cons c cs ih =>
    by_cases h1 : c = '"'
    · simpa [csvSplitAux, h1] using ih (!q) cur
    · by_cases h2 : q = false ∧ c = ','
      · simp [csvSplitAux, h1, h2]
      · simpa [csvSplitAux, h1, h2] using ih q (c :: cur)

theorem splitNl_ne_nil (cs : List Char) : splitNl cs ≠ [] := by
  induction cs with
  | nil => simp [splitNl]
  | cons c cs ih =>
    by_cases h : c = '\n'
    · simp [splitNl, h]
    · simp only [splitNl, if_neg h]
      cases hs : splitNl cs <;> simp

theorem splitNl_append_newline (cs : List Char) :
    splitNl (cs ++ ['\n']) = splitNl cs ++ [[]] := by
  induction cs with
  | nil => simp [splitNl]
  | cons c cs ih =>
    by_cases h : c = '\n'
    · simp [splitNl, h, ih]
    · cases hs : splitNl cs with
      | nil => exact absurd hs (splitNl_ne_nil cs)
      | cons r rs => simp [splitNl, h, ih, hs]

theorem find?_reverse_range_map {β : Type} (g : ℕ → String × β) (k : String) (j m : ℕ)
    (hj : j < m) (hk : (g j).1 = k) (hafter : ∀ i, j < i → i < m → (g i).1 ≠ k) :
    ((List.range m).map g).reverse.find? (fun p => p.1 = k) = some (g j) := by
  induction m with
  | zero => exact absurd hj (Nat.not_lt_zero j)
  | succ m ih =>
    rw [List.range_succ, List.map_append, List.reverse_append]
    simp only [List.map_cons, List.map_nil, List.reverse_cons, List.reverse_nil,
      List.nil_append, List.singleton_append]
    rcases Nat.lt_succ_iff_lt_or_eq.mp hj with hlt | heq
    · have hm : ¬((g m).1 = k) := hafter m hlt (Nat.lt_succ_self m)
      rw [List.find?_cons]
      simp only [decide_eq_false hm]
      exact ih hlt (fun i h1 h2 => hafter i h1 (Nat.lt_succ_of_lt h2))
    · subst heq
      rw [List.find?_cons]
      simp [hk]

/-! ## Claims C4, C8, C10: the tabular parser -/

/-- C4: for every table row in which each field value containing a comma is
wrapped in double-quote characters (field values themselves carry no
double-quote character — `csvSplit` consumes every double quote purely as a
toggle of the in-quotes mode, never as content), the row parser recovers
exactly the original fields, so its field count equals the field count of the
parsed header row; and no double quote survives into any parsed field. -/
theorem csvSplit_quoted_field_count (header fields : List (List Char))
    (hlen : fields.length = header.length)
    (hh : ∀ f ∈ header, '"' ∉ f ∧ ',' ∉ f)
    (hf : ∀ f ∈ fields, '"' ∉ f)
    (hne : header ≠ []) :
    (csvSplit (joinComma (fields.map quoteIfNeeded))).length
        = (csvSplit (joinComma header)).length ∧
      ∀ g ∈ csvSplit (joinComma (fields.map quoteIfNeeded)), '"' ∉ g := by
  have hfne : fields ≠ [] := by
    intro h0
    rw [h0] at hlen
    exact hne (List.length_eq_zero.mp hlen.symm)
  have h1 := csvSplit_joinQuoted fields hf hfne
  have h2 := csvSplit_plainRow header hh hne
  refine ⟨by rw [h1, h2, hlen], ?_⟩
  intro g hg
  rw [h1] at hg
  exact hf g hg

theorem csvSplit_quoted_field_count_witness :
    (csvSplit (joinComma (["x,y".toList, "z".toList].map quoteIfNeeded))).length
      = (csvSplit (joinComma ["a".toList, "b".toList])).length :=
  (csvSplit_quoted_field_count ["a".toList, "b".toList] ["x,y".toList, "z".toList]
    (by decide) (by decide) (by decide) (by decide)).1

/-- C8 (amended): a data row shorter than the header yields a record in which
the trailing header names are absent (`objGet` is `none`, not `some ""`), and
a table text ending in a newline still yields a final record for the empty
last row — but that record carries exactly one field, binding the first
header name to the empty string, because `csvSplit` applied to an empty row
pushes one final empty field (script.js line 647) rather than producing zero
fields. -/
theorem csvToObjects_short_and_trailing (names row : List String) (j : ℕ)
    (hnodup : names.Nodup) (hshort : row.length ≤ j) (hj : j < names.length) :
    objGet (names.get ⟨j, hj⟩) (zipRecord names row) = none ∧
      ∀ cs : List Char, (csvToObjects (cs ++ ['\n'])).getLast?
        = some [(((csvSplit ((splitNl cs).headI)).map toStr).headI, "")] := by
  constructor
  · rw [zipRecord, objGet_objSetAll]
    have hfind : (((List.range row.length).map
        (fun i => (names.getD i "undefined", row.getD i ""))).reverse.find?
          (fun p => p.1 = names.get ⟨j, hj⟩)) = none := by
      rw [List.find?_eq_none]
      intro p hp
      rw [List.mem_reverse] at hp
      obtain ⟨i, hi, hgi⟩ := List.mem_map.mp hp
      subst hgi
      rw [List.mem_range] at hi
      have hij : i < j := Nat.lt_of_lt_of_le hi hshort
      have hil : i < names.length := hij.trans hj
      simp only [decide_eq_true_eq, List.getD_eq_getElem names "undefined" hil,
        List.get_eq_getElem]
      intro heq
      exact absurd ((List.Nodup.getElem_inj_iff hnodup).mp heq) (Nat.ne_of_lt hij)
    rw [hfind]
    rfl
  · intro cs
    obtain ⟨h, t, hs⟩ : ∃ h t, splitNl cs = h :: t := by
      cases hsp : splitNl cs with
      | nil => exact absurd hsp (splitNl_ne_nil cs)
      | cons x xs => exact ⟨x, xs, rfl⟩
    obtain ⟨n0, ns, hn⟩ : ∃ n0 ns, (csvSplit h).map toStr = n0 :: ns := by
      cases hcs : csvSplit h with
      | nil => exact absurd hcs (csvSplitAux_ne_nil h false [])
      | cons x xs => exact ⟨toStr x, xs.map toStr, rfl⟩
    have hsplit : splitNl (cs ++ ['\n']) = h :: (t ++ [[]]) := by
      rw [splitNl_append_newline, hs]
      rfl
    have hobj : csvToObjects (cs ++ ['\n'])
        = (t ++ [[]]).map
            (fun r => zipRecord ((csvSplit h).map toStr) ((csvSplit r).map toStr)) := by
      unfold csvToObjects
      rw [hsplit]
    have hzip : zipRecord (n0 :: ns) [""] = [(n0, "")] := by
      simp [zipRecord, objSetAll, objSet, show List.range 1 = [0] from rfl]
    rw [hobj, List.map_append]
    simp only [List.map_cons, List.map_nil]
    rw [List.getLast?_concat]
    have hemptyrow : (csvSplit ([] : List Char)).map toStr = [""] := rfl
    rw [hemptyrow, hn, hzip, hs]
    simp [List.headI, hn]

theorem csvToObjects_short_and_trailing_witness :
    objGet "b" (zipRecord ["a", "b"] ["x"]) = none ∧
      (csvToObjects "a,b\nx\n".toList).getLast? = some [("a", "")] := by
  have h := csvToObjects_short_and_trailing ["a", "b"] ["x"] 1
    (by decide) (by decide) (by decide)
  exact ⟨h.1, h.2 "a,b\nx".toList⟩

/-- C8, counterexample to the claim as stated: the final record produced for
the empty last row of a text with a trailing newline is not a zero-field
record — it binds the first header name to the empty string. -/
theorem csvToObjects_trailing_not_zero_fields :
    (csvToObjects "a,b\nx,y\n".toList).getLast? = some [("a", "")] ∧
      (csvToObjects "a,b\nx,y\n".toList).getLast? ≠ some [] := by
  decide

/-- C10: when a header name occupies several column positions, the record
binds that name to the value of the last such column present in the row
(earlier columns' values are overwritten by the later positional assignment
at script.js line 615), and a record never holds two bindings for one field
name (its key list is duplicate-free). -/
theorem zipRecord_duplicate_header (names row : List String) (n : String) (j : ℕ)
    (hwidth : row.length ≤ names.length) (hj : j < row.length)
    (hn : names.getD j "undefined" = n)
    (hlast : ∀ i, j < i → i < row.length → names.getD i "undefined" ≠ n) :
    objGet n (zipRecord names row) = some (row.getD j "") ∧
      (objKeys (zipRecord names row)).Nodup := by
  have _ := hwidth
  constructor
  · rw [zipRecord, objGet_objSetAll,
      find?_reverse_range_map (fun i => (names.getD i "undefined", row.getD i "")) n j
        row.length hj hn hlast]
  · exact objKeys_objSetAll_nodup _ [] (by simp [objKeys])

theorem zipRecord_duplicate_header_witness :
    objGet "a" (zipRecord ["a", "b", "a"] ["1", "2", "3"]) = some "3" ∧
      (objKeys (zipRecord ["a", "b", "a"] ["1", "2", "3"])).Nodup := by
  have h := zipRecord_duplicate_header ["a", "b", "a"] ["1", "2", "3"] "a" 2
    (by decide) (by decide) (by decide)
    (fun i h1 h2 => absurd h2 (Nat.not_lt.mpr h1))
  exact h

/-! ## Claim C3: coordinate coercion -/

theorem span_head_false {p : Char → Bool} (c : Char) (l : List Char) (h : p c = false) :
    (c :: l).span p = ([], c :: l) := by
  simp [List.span, List.span.loop, h]

theorem parseFloat_of_not_startsNumeric (cs : List Char) (h : startsNumeric cs = false) :
    parseFloat cs = .nan := by
  unfold startsNumeric at h
  rw [Bool.or_eq_false_iff] at h
  obtain ⟨hinf, hhead⟩ := h
  unfold parseFloat
  rw [if_neg (by simp [hinf])]
  cases hc : (parseSign (cs.dropWhile isWS)).2 with
  | nil => simp [List.span, List.span.loop]
  | cons c rest =>
    rw [hc] at hhead
    rw [Bool.or_eq_false_iff] at hhead
    obtain ⟨hdig, hdot⟩ := hhead
    rw [span_head_false c rest hdig]
    by_cases hcdot : c = '.'
    · subst hcdot
      cases rest with
      | nil => simp [List.span, List.span.loop]
      | cons d r2 =>
        have hd : d.isDigit = false := by simpa using hdot
        simp [List.head?, List.tail, hd]
    · simp [List.head?, hcdot]

/-- C3, counterexample to the claim as stated: the master-table latitude field
`"14.5abc"` is non-numeric text, yet the transformer's coercion yields the
silently truncated value 14.5 rather than NaN — JavaScript `parseFloat` takes
the longest numeric prefix. -/
theorem transform_lat_truncated :
    (toStation [("id", "s9"), ("lat", "14.5abc"), ("lng", "120.9")]).lat
        = .num (29 / 2) ∧
      (toStation [("id", "s9"), ("lat", "14.5abc"), ("lng", "120.9")]).lat ≠ .nan := by
  have h : (toStation [("id", "s9"), ("lat", "14.5abc"), ("lng", "120.9")]).lat
      = JSNum.num ((natOfDigits "145".toList : ℚ) / (10 : ℚ) ^ 1
          * (10 : ℚ) ^ ((0 : ℤ)).toNat) := rfl
  constructor
  · rw [h, show natOfDigits "145".toList = 145 from rfl]
    norm_num
  · rw [h]
    simp

/-- C3 (amended): a latitude or longitude field whose text has no numeric
prefix (after optional white space and sign it starts with neither a digit,
nor a decimal point followed by a digit, nor `Infinity`) coerces to NaN; but a
field with a numeric prefix followed by trailing text coerces to the prefix's
value — in particular `"14.5abc"` coerces to 14.5, silently truncated. -/
theorem transform_nonnumeric_coord_nan :
    (∀ rec v, objGet "lat" rec = some v → startsNumeric v.toList = false →
        (toStation rec).lat = .nan) ∧
      (∀ rec v, objGet "lng" rec = some v → startsNumeric v.toList = false →
        (toStation rec).lng = .nan) ∧
      (toStation [("id", "s9"), ("lat", "14.5abc"), ("lng", "120.9")]).lat
        = .num (29 / 2) := by
  refine ⟨?_, ?_, ?_⟩
  · intro rec v hv hns
    show parseFloat (fieldText rec "lat") = .nan
    rw [fieldText, hv]
    exact parseFloat_of_not_startsNumeric v.toList hns
  · intro rec v hv hns
    show parseFloat (fieldText rec "lng") = .nan
    rw [fieldText, hv]
    exact parseFloat_of_not_startsNumeric v.toList hns
  · have h : (toStation [("id", "s9"), ("lat", "14.5abc"), ("lng", "120.9")]).lat
        = JSNum.num ((natOfDigits "145".toList : ℚ) / (10 : ℚ) ^ 1
            * (10 : ℚ) ^ ((0 : ℤ)).toNat) := rfl
    rw [h, show natOfDigits "145".toList = 145 from rfl]
    norm_num

theorem transform_nonnumeric_coord_nan_witness :
    objGet "lat" [("lat", "abc")] = some "abc" ∧
      startsNumeric "abc".toList = false ∧
      (toStation [("lat", "abc")]).lat = .nan :=
  ⟨by decide, by decide,
    transform_nonnumeric_coord_nan.1 [("lat", "abc")] "abc" (by decide) (by decide)⟩

/-! ## Lemmas about the selection state machine -/

theorem dynLookup_eq (st : AppState) (stationId : String) (dc : DateContentEntry)
    (h : objGet st.selectedDate st.dateContent = some dc) :
    dynLookup st stationId = objGet stationId dc.stations := by
  unfold dynLookup
  rw [h]

theorem dynLookup_eq_some (st : AppState) (stationId : String) (d : DateStationEntry)
    (h : dynLookup st stationId = some d) :
    ∃ dc, objGet st.selectedDate st.dateContent = some dc ∧
      objGet stationId dc.stations = some d := by
  unfold dynLookup at h
  cases hg : objGet st.selectedDate st.dateContent with
  | none => rw [hg] at h; exact absurd h (by simp)
  | some dc => rw [hg] at h; exact ⟨dc, rfl, h⟩

theorem selectStation_invalid (st : AppState) (ok : Bool) (stationId : String)
    (h : st.stations.find? (fun s => s.id = stationId) = none ∨
      dynLookup st stationId = none) :
    selectStation st ok stationId = { st with warnings := st.warnings + 1 } := by
  unfold selectStation
  rcases hf : st.stations.find? (fun s => s.id = stationId) with _ | s <;>
    rcases hd : dynLookup st stationId with _ | d <;>
      first
        | rfl
        | (rcases h with h | h <;> simp [h] at hf hd ⊢)

theorem selectStation_success_sel (st : AppState) (ok : Bool) (stationId : String)
    (s : Station) (d : DateStationEntry)
    (hf : st.stations.find? (fun x => x.id = stationId) = some s)
    (hd : dynLookup st stationId = some d) :
    (selectStation st ok stationId).selectedStationId = some stationId := by
  unfold selectStation
  rw [hf, hd]

theorem selectStation_success_transport (st : AppState) (stationId : String)
    (s : Station) (d : DateStationEntry)
    (hf : st.stations.find? (fun x => x.id = stationId) = some s)
    (hd : dynLookup st stationId = some d) :
    (selectStation st false stationId).isPlayingWindow = false ∧
      (selectStation st false stationId).btnLabel = "Play" ∧
      (selectStation st false stationId).alerts = st.alerts := by
  unfold selectStation
  rw [hf, hd]
  exact ⟨rfl, rfl, rfl⟩

theorem selectStation_proj (st : AppState) (ok : Bool) (stationId : String) :
    (selectStation st ok stationId).stations = st.stations ∧
      (selectStation st ok stationId).dateContent = st.dateContent ∧
      (selectStation st ok stationId).selectedDate = st.selectedDate := by
  rcases hf : st.stations.find? (fun s => s.id = stationId) with _ | s
  · rw [selectStation_invalid st ok stationId (Or.inl hf)]
    exact ⟨rfl, rfl, rfl⟩
  · rcases hd : dynLookup st stationId with _ | d
    · rw [selectStation_invalid st ok stationId (Or.inr hd)]
      exact ⟨rfl, rfl, rfl⟩
    · unfold selectStation
      rw [hf, hd]
      exact ⟨rfl, rfl, rfl⟩

theorem selectStation_sel (st : AppState) (ok : Bool) (stationId : String) :
    (selectStation st ok stationId).selectedStationId = st.selectedStationId ∨
      ((selectStation st ok stationId).selectedStationId = some stationId ∧
        ∃ dc, objGet st.selectedDate st.dateContent = some dc ∧
          (objGet stationId dc.stations).isSome) := by
  rcases hf : st.stations.find? (fun s => s.id = stationId) with _ | s
  · left
    rw [selectStation_invalid st ok stationId (Or.inl hf)]
  · rcases hd : dynLookup st stationId with _ | d
    · left
      rw [selectStation_invalid st ok stationId (Or.inr hd)]
    · right
      obtain ⟨dc, hdc, hentry⟩ := dynLookup_eq_some st stationId d hd
      exact ⟨selectStation_success_sel st ok stationId s d hf hd,
        dc, hdc, by rw [hentry]; rfl⟩

theorem changeFallback_found (st1 : AppState) (dc : DateContentEntry) (ok : Bool)
    (s : Station)
    (hf : st1.stations.find? (fun x => (objGet x.id dc.stations).isSome) = some s) :
    changeFallback st1 dc ok = selectStation st1 ok s.id := by
  unfold changeFallback
  have hne : st1.stations ≠ [] := by
    intro h0
    rw [h0] at hf
    exact absurd hf (by simp)
  rw [if_neg hne, hf]

theorem changeFallback_none (st1 : AppState) (dc : DateContentEntry) (ok : Bool)
    (hf : st1.stations.find? (fun x => (objGet x.id dc.stations).isSome) = none) :
    changeFallback st1 dc ok = st1 := by
  unfold changeFallback
  by_cases hne : st1.stations = []
  · rw [if_pos hne]
  · rw [if_neg hne, hf]

theorem changeFallback_proj (st1 : AppState) (dc : DateContentEntry) (ok : Bool) :
    (changeFallback st1 dc ok).stations = st1.stations ∧
      (changeFallback st1 dc ok).dateContent = st1.dateContent ∧
      (changeFallback st1 dc ok).selectedDate = st1.selectedDate := by
  unfold changeFallback
  by_cases hne : st1.stations = []
  · rw [if_pos hne]
    exact ⟨rfl, rfl, rfl⟩
  · rw [if_neg hne]
    cases hf : st1.stations.find? (fun x => (objGet x.id dc.stations).isSome) with
    | none => exact ⟨rfl, rfl, rfl⟩
    | some s => exact selectStation_proj st1 ok s.id

theorem reselect_keep (st1 : AppState) (dc : DateContentEntry) (ok : Bool) (cur : String)
    (hsel : st1.selectedStationId = some cur)
    (hval : (objGet cur dc.stations).isSome) :
    reselect st1 dc ok = selectStation st1 ok cur := by
  unfold reselect
  rw [hsel]
  show (if (objGet cur dc.stations).isSome = true then selectStation st1 ok cur
    else changeFallback st1 dc ok) = selectStation st1 ok cur
  rw [if_pos hval]

theorem reselect_stale (st1 : AppState) (dc : DateContentEntry) (ok : Bool)
    (h : ∀ cur, st1.selectedStationId = some cur → objGet cur dc.stations = none) :
    reselect st1 dc ok = changeFallback st1 dc ok := by
  unfold reselect
  cases hsel : st1.selectedStationId with
  | none => rfl
  | some cur =>
    show (if (objGet cur dc.stations).isSome = true then selectStation st1 ok cur
      else changeFallback st1 dc ok) = changeFallback st1 dc ok
    rw [h cur hsel]
    rfl

theorem reselect_proj (st1 : AppState) (dc : DateContentEntry) (ok : Bool) :
    (reselect st1 dc ok).stations = st1.stations ∧
      (reselect st1 dc ok).dateContent = st1.dateContent ∧
      (reselect st1 dc ok).selectedDate = st1.selectedDate := by
  cases hsel : st1.selectedStationId with
  | none =>
    rw [reselect_stale st1 dc ok (fun c hc => absurd (hsel.symm.trans hc) (by simp))]
    exact changeFallback_proj st1 dc ok
  | some cur =>
    by_cases hval : (objGet cur dc.stations).isSome = true
    · rw [reselect_keep st1 dc ok cur hsel hval]
      exact selectStation_proj st1 ok cur
    · rw [reselect_stale st1 dc ok (fun c hc => by
        have hcc : some cur = some c := hsel.symm.trans hc
        cases hcc
        exact Option.not_isSome_iff_eq_none.mp hval)]
      exact changeFallback_proj st1 dc ok

theorem changePanelContent_known (st : AppState) (ok : Bool) (dc : DateContentEntry)
    (h : objGet st.selectedDate st.dateContent = some dc) :
    changePanelContent st ok = reselect (renderState st dc) dc ok := by
  unfold changePanelContent
  rw [h]

theorem setDate_known (st : AppState) (d : String) (ok : Bool) (dc : DateContentEntry)
    (h : objGet d st.dateContent = some dc) :
    setDate st d ok = changePanelContent { st with selectedDate := d } ok := by
  unfold setDate
  rw [h]
  rfl

theorem setDate_unknown (st : AppState) (d : String) (ok : Bool)
    (h : objGet d st.dateContent = none) :
    setDate st d ok = { st with warnings := st.warnings + 1 } := by
  unfold setDate
  rw [h]
  rfl

theorem setDate_proj (st : AppState) (d : String) (ok : Bool) (dc : DateContentEntry)
    (hdc : objGet d st.dateContent = some dc) :
    (setDate st d ok).stations = st.stations ∧
      (setDate st d ok).dateContent = st.dateContent ∧
      (setDate st d ok).selectedDate = d := by
  rw [setDate_known st d ok dc hdc, changePanelContent_known _ ok dc hdc]
  exact reselect_proj (renderState { st with selectedDate := d } dc) dc ok

theorem reselect_sel_keep (st1 : AppState) (dc : DateContentEntry) (ok : Bool)
    (cur : String)
    (hsel : st1.selectedStationId = some cur)
    (hval : (objGet cur dc.stations).isSome) :
    (reselect st1 dc ok).selectedStationId = some cur := by
  rw [reselect_keep st1 dc ok cur hsel hval]
  rcases hf : st1.stations.find? (fun s => s.id = cur) with _ | s
  · rw [selectStation_invalid st1 ok cur (Or.inl hf)]
    exact hsel
  · rcases hd : dynLookup st1 cur with _ | dd
    · rw [selectStation_invalid st1 ok cur (Or.inr hd)]
      exact hsel
    · exact selectStation_success_sel st1 ok cur s dd hf hd

theorem reselect_sel_fallback (st1 : AppState) (dc : DateContentEntry) (ok : Bool)
    (s : Station)
    (hdc1 : objGet st1.selectedDate st1.dateContent = some dc)
    (hstale : ∀ cur, st1.selectedStationId = some cur → objGet cur dc.stations = none)
    (hf : st1.stations.find? (fun x => (objGet x.id dc.stations).isSome) = some s) :
    (reselect st1 dc ok).selectedStationId = some s.id := by
  rw [reselect_stale st1 dc ok hstale, changeFallback_found st1 dc ok s hf]
  have hmem : s ∈ st1.stations := List.mem_of_find?_eq_some hf
  have hentry : (objGet s.id dc.stations).isSome = true := by
    simpa using List.find?_some hf
  obtain ⟨s2, hs2⟩ := Option.isSome_iff_exists.mp
    (List.find?_isSome.mpr ⟨s, hmem, by simp⟩ :
      (st1.stations.find? (fun x => x.id = s.id)).isSome)
  obtain ⟨dd, hdd⟩ := Option.isSome_iff_exists.mp
    (by rw [dynLookup_eq st1 s.id dc hdc1]
        exact hentry :
      (dynLookup st1 s.id).isSome)
  exact selectStation_success_sel st1 ok s.id s2 dd hs2 hdd

theorem reselect_sel_none (st1 : AppState) (dc : DateContentEntry) (ok : Bool)
    (hnone : ∀ x ∈ st1.stations, objGet x.id dc.stations = none) :
    (reselect st1 dc ok).selectedStationId = st1.selectedStationId := by
  have hf : st1.stations.find? (fun x => (objGet x.id dc.stations).isSome) = none :=
    List.find?_eq_none.mpr (fun x hx => by simp [hnone x hx])
  rcases hsel : st1.selectedStationId with _ | cur
  · rw [reselect_stale st1 dc ok (fun c hc => absurd (hsel.symm.trans hc) (by simp)),
      changeFallback_none st1 dc ok hf]
    exact hsel
  · by_cases hval : (objGet cur dc.stations).isSome = true
    · rw [reselect_keep st1 dc ok cur hsel hval]
      have hfind : st1.stations.find? (fun x => x.id = cur) = none := by
        rw [List.find?_eq_none]
        intro x hx
        simp only [decide_eq_true_eq]
        intro hxid
        have hx0 := hnone x hx
        rw [hxid] at hx0
        rw [hx0] at hval
        exact absurd hval (by simp)
      rw [selectStation_invalid st1 ok cur (Or.inl hfind)]
      exact hsel
    · rw [reselect_stale st1 dc ok (fun c hc => by
          have hcc : some cur = some c := hsel.symm.trans hc
          cases hcc
          exact Option.not_isSome_iff_eq_none.mp hval),
        changeFallback_none st1 dc ok hf]
      exact hsel

theorem setDate_sel_keep (st : AppState) (d : String) (ok : Bool)
    (dc : DateContentEntry) (cur : String)
    (hdc : objGet d st.dateContent = some dc)
    (hcur : st.selectedStationId = some cur)
    (hval : (objGet cur dc.stations).isSome) :
    (setDate st d ok).selectedStationId = some cur := by
  rw [setDate_known st d ok dc hdc,
    changePanelContent_known { st with selectedDate := d } ok dc hdc]
  exact reselect_sel_keep (renderState { st with selectedDate := d } dc) dc ok cur
    hcur hval

theorem setDate_sel_fallback (st : AppState) (d : String) (ok : Bool)
    (dc : DateContentEntry) (s : Station)
    (hdc : objGet d st.dateContent = some dc)
    (hstale : ∀ cur, st.selectedStationId = some cur → objGet cur dc.stations = none)
    (hf : st.stations.find? (fun x => (objGet x.id dc.stations).isSome) = some s) :
    (setDate st d ok).selectedStationId = some s.id := by
  rw [setDate_known st d ok dc hdc,
    changePanelContent_known { st with selectedDate := d } ok dc hdc]
  exact reselect_sel_fallback (renderState { st with selectedDate := d } dc) dc ok s
    hdc hstale hf

theorem setDate_sel_none (st : AppState) (d : String) (ok : Bool)
    (dc : DateContentEntry)
    (hdc : objGet d st.dateContent = some dc)
    (hnone : ∀ x ∈ st.stations, objGet x.id dc.stations = none) :
    (setDate st d ok).selectedStationId = st.selectedStationId := by
  rw [setDate_known st d ok dc hdc,
    changePanelContent_known { st with selectedDate := d } ok dc hdc]
  exact reselect_sel_none (renderState { st with selectedDate := d } dc) dc ok hnone

/-! ## Claims C5, C9: invalid selection and date requests -/

/-- C5: calling `selectStation` with a station id that is missing from the
roster or has no entry in the currently selected date's station mapping only
emits a diagnostic (the `console.warn` at script.js line 441, counted in
`warnings`) and changes nothing else: no selection, list highlight, displayed
text, audio source, or map viewport change, and — the transition being a
total function — no fault is thrown. -/
theorem selectStation_invalid_noop (st : AppState) (playOk : Bool) (stationId : String)
    (h : st.stations.find? (fun s => s.id = stationId) = none ∨
      dynLookup st stationId = none) :
    selectStation st playOk stationId = { st with warnings := st.warnings + 1 } :=
  selectStation_invalid st playOk stationId h

theorem selectStation_invalid_noop_witness :
    selectStation exInit true "zz" = { exInit with warnings := exInit.warnings + 1 } :=
  selectStation_invalid_noop exInit true "zz" (Or.inl (by decide))

/-- C9: invoking the date-change transition with an identifier `d` that is not
a known date tab leaves `selectedDate` (and every rendered panel, the station
list, and the selection) unchanged — the handler's guard at script.js
lines 515–519 only logs a warning and returns. -/
theorem setDate_unknown_noop (st : AppState) (d : String) (playOk : Bool)
    (h : objGet d st.dateContent = none) :
    setDate st d playOk = { st with warnings := st.warnings + 1 } :=
  setDate_unknown st d playOk h

theorem setDate_unknown_noop_witness :
    setDate exInit "Feb25" true = { exInit with warnings := exInit.warnings + 1 } :=
  setDate_unknown_noop exInit "Feb25" true (by decide)

/-! ## Claim C6: mute / unmute -/

/-- C6: from an unmuted state with volume `v`, clicking the volume button
(mute) and clicking it again (unmute) restores the volume to exactly `v` when
`v > 0`, and to the fixed default 0.7 when `v = 0` (script.js lines
349–366). -/
theorem mute_unmute_restores (st : VolumeState) (hm : st.isMuted = false) :
    (0 < st.volume → (volumeBtnClick (volumeBtnClick st)).volume = st.volume) ∧
      (st.volume = 0 → (volumeBtnClick (volumeBtnClick st)).volume = 7 / 10) := by
  constructor
  · intro hv
    simp [volumeBtnClick, hm, hv]
  · intro hv
    simp [volumeBtnClick, hm, hv]

theorem mute_unmute_restores_witness :
    (volumeBtnClick (volumeBtnClick ⟨1, 1, false, 1⟩)).volume = 1 ∧
      (volumeBtnClick (volumeBtnClick ⟨0, 0, false, 1⟩)).volume = 7 / 10 :=
  ⟨(mute_unmute_restores ⟨1, 1, false, 1⟩ rfl).1 zero_lt_one,
    (mute_unmute_restores ⟨0, 0, false, 1⟩ rfl).2 rfl⟩

/-! ## Claim C7: autoplay-policy rejection -/

/-- C7, counterexample to the claim as stated: when the platform rejects the
playback attempt made by the play/pause toggle from a paused state, the
controller does *not* end in a paused visual state — the handler at script.js
lines 379–391 sets the label to `Pause` and flips `isPlaying` to `true`
unconditionally, the rejection handler only writing a console message.  (No
alert is raised, as the claim says.) -/
theorem playBtnClick_rejected_not_paused :
    (playBtnClick ⟨false, "Play", 0, 0⟩ false).isPlaying = true ∧
      (playBtnClick ⟨false, "Play", 0, 0⟩ false).btnLabel = "Pause" ∧
      (playBtnClick ⟨false, "Play", 0, 0⟩ false).alerts = 0 := by
  decide

/-- C7 (amended): when a playback-start attempt is rejected, no path surfaces
an alert; on the load-new-source path (`selectStation`, script.js lines
486–497) the controller ends in a paused visual state (`window.isPlaying`
false, button label `Play`); but on the play/pause toggle path (lines
379–391) the rejection only logs to the console while the button still shows
`Pause` and the internal `isPlaying` flag remains `true`. -/
theorem playback_rejection_behaviour :
    (∀ (st : AppState) (stationId : String) (s : Station) (d : DateStationEntry),
        st.stations.find? (fun x => x.id = stationId) = some s →
        dynLookup st stationId = some d →
        (selectStation st false stationId).isPlayingWindow = false ∧
          (selectStation st false stationId).btnLabel = "Play" ∧
          (selectStation st false stationId).alerts = st.alerts) ∧
      (∀ t : TransportState, t.isPlaying = false →
        playBtnClick t false
          = { t with isPlaying := true, btnLabel := "Pause", consoleLogs := t.consoleLogs + 1 }) := by
  constructor
  · intro st stationId s d hf hd
    exact selectStation_success_transport st stationId s d hf hd
  · intro t ht
    simp [playBtnClick, ht]

theorem playback_rejection_behaviour_witness :
    ((selectStation exInit false "s1").isPlayingWindow = false ∧
        (selectStation exInit false "s1").btnLabel = "Play" ∧
        (selectStation exInit false "s1").alerts = exInit.alerts) ∧
      playBtnClick ⟨false, "Play", 3, 0⟩ false = ⟨true, "Pause", 4, 0⟩ :=
  ⟨playback_rejection_behaviour.1 exInit "s1" exS1 ⟨"desc-s1", "url-s1"⟩
      (by decide) (by decide),
    playback_rejection_behaviour.2 ⟨false, "Play", 3, 0⟩ rfl⟩

/-! ## Claim C1: selection across a date change -/

/-- C1: on a date change to a known date `d` with content `dc`: a previously
selected station id that has an entry under `d` stays selected; otherwise the
first roster station (in roster order) with an entry for `d` becomes the one
selected station; and if no roster station has an entry for `d`, no station
becomes selected — the transition performs no selection at all, leaving
`selectedStationId` exactly as it was before the change. -/
theorem setDate_selection_cases (st : AppState) (d : String) (ok : Bool)
    (dc : DateContentEntry) (hdc : objGet d st.dateContent = some dc) :
    (∀ cur, st.selectedStationId = some cur → (objGet cur dc.stations).isSome →
        (setDate st d ok).selectedStationId = some cur) ∧
      (∀ s, (∀ cur, st.selectedStationId = some cur → objGet cur dc.stations = none) →
        st.stations.find? (fun x => (objGet x.id dc.stations).isSome) = some s →
        (setDate st d ok).selectedStationId = some s.id) ∧
      ((∀ x ∈ st.stations, objGet x.id dc.stations = none) →
        (setDate st d ok).selectedStationId = st.selectedStationId) :=
  ⟨fun cur h1 h2 => setDate_sel_keep st d ok dc cur hdc h1 h2,
    fun s h1 h2 => setDate_sel_fallback st d ok dc s hdc h1 h2,
    fun h1 => setDate_sel_none st d ok dc hdc h1⟩

theorem setDate_selection_cases_witness :
    (setDate exInit "Feb22" true).selectedStationId = some "s1" :=
  (setDate_selection_cases exInit "Feb22" true exDC (by decide)).2.1 exS1
    (fun cur hc => Option.noConfusion hc) (by decide)

/-! ## Claim C2: the selection invariant -/

theorem selInv_step (st st' : AppState) (hstep : AppStep st st') (hinv : SelInv st) :
    SelInv st' := by
  cases hstep with
  | select stationId ok =>
    intro i dc hsel hdc hex
    obtain ⟨hst, hdcnt, hsd⟩ := selectStation_proj st ok stationId
    rw [hsd, hdcnt] at hdc
    rw [hst] at hex
    rcases selectStation_sel st ok stationId with hkeep | ⟨hnew, dc0, hdc0, hval0⟩
    · rw [hkeep] at hsel
      exact hinv i dc hsel hdc hex
    · rw [hnew] at hsel
      obtain rfl : stationId = i := Option.some.inj hsel
      have hdd : dc0 = dc := Option.some.inj (hdc0.symm.trans hdc)
      rw [← hdd]
      exact hval0
  | date d ok =>
    intro i dc hsel hdc hex
    rcases hknown : objGet d st.dateContent with _ | dc0
    · rw [setDate_unknown st d ok hknown] at hsel hdc hex
      exact hinv i dc hsel hdc hex
    · obtain ⟨hst, hdcnt, hsd⟩ := setDate_proj st d ok dc0 hknown
      rw [hsd, hdcnt] at hdc
      have hdd : dc0 = dc := Option.some.inj (hknown.symm.trans hdc)
      subst hdd
      rw [hst] at hex
      by_cases hcur : ∃ cur, st.selectedStationId = some cur ∧
        (objGet cur dc0.stations).isSome
      · obtain ⟨cur, hc1, hc2⟩ := hcur
        rw [setDate_sel_keep st d ok dc0 cur hknown hc1 hc2] at hsel
        obtain rfl : cur = i := Option.some.inj hsel
        exact hc2
      · have hstale : ∀ cur, st.selectedStationId = some cur →
            objGet cur dc0.stations = none := by
          intro cur hc
          by_contra hne
          exact hcur ⟨cur, hc, Option.ne_none_iff_isSome.mp hne⟩
        rcases hfind : st.stations.find?
            (fun x => (objGet x.id dc0.stations).isSome) with _ | s
        · obtain ⟨x, hx, hxs⟩ := hex
          exact absurd hxs (List.find?_eq_none.mp hfind x hx)
        · rw [setDate_sel_fallback st d ok dc0 s hknown hstale hfind] at hsel
          obtain rfl : s.id = i := Option.some.inj hsel
          simpa using List.find?_some hfind

/-- C2 (amended): over every state reachable by `setDate` and `selectStation`
transitions from a state with no selection, whenever a station id is selected
*and the current date has at least one qualifying roster station*, the
selected id has an entry in `DateContent[selectedDate].stations`.  (Without
that qualification the claimed invariant is false: a date change to a date
with no qualifying station retains the stale id — see the counterexample.) -/
theorem selection_invariant_reachable (init st : AppState)
    (h0 : init.selectedStationId = none) (hr : AppReachable init st) : SelInv st := by
  unfold AppReachable at hr
  induction hr with
  | refl =>
    intro i dc hsel _ _
    rw [h0] at hsel
    exact absurd hsel (by simp)
  | tail _ hstep ih => exact selInv_step _ _ hstep ih

theorem selection_invariant_reachable_witness :
    (objGet "s1" exDC.stations).isSome :=
  selection_invariant_reachable exInit (setDate exInit "Feb22" true) rfl
    (Relation.ReflTransGen.single (AppStep.date exInit "Feb22" true))
    "s1" exDC (by decide) (by decide) ⟨exS1, by decide, by decide⟩

/-- C2, counterexample to the claim as stated: from the no-selection initial
state, selecting date `Feb22` (which auto-selects `s1`) and then date `Feb23`
(which has no qualifying station) reaches a state whose selected station id
`s1` has no entry under the selected date — the stale id is retained, the
selection does not become absent. -/
theorem stale_selection_reachable :
    AppReachable exInit exStale ∧
      exStale.selectedStationId = some "s1" ∧
      objGet exStale.selectedDate exStale.dateContent = some exDCEmpty ∧
      objGet "s1" exDCEmpty.stations = none := by
  refine ⟨?_, by decide, by decide, by decide⟩
  exact Relation.ReflTransGen.tail
    (Relation.ReflTransGen.single (AppStep.date exInit "Feb22" true))
    (AppStep.date (setDate exInit "Feb22" true) "Feb23" true)
